import Mathlib

/-!
Verification of the scene/rendering runtime surface of the processing
library (Python examples plus interactive-shell glue over a native engine).
The engine behind the Python API is modelled from the specification where
its code is not part of the repository snapshot; the Python glue
(jupyter_post_execute.py, register_inputhook.py) is embedded directly.
Scalars are modelled as rationals.
-/

set_option maxRecDepth 8192

namespace Processing

/-- Modelled from the spec: the error taxonomy of section 7 (StackUnderflow,
IndexOutOfRange, AlreadyRecording, EmptyRecording, InvalidHandle,
MissingParameter, NotFound). -/
inductive Err where
  | stackUnderflow
  | indexOutOfRange
  | alreadyRecording
  | emptyRecording
  | invalidHandle
  | missingParameter
  | notFound
deriving DecidableEq, Repr

/-! ## Transform Stack (spec section 4.1)

The engine code implementing push_matrix / pop_matrix / rotate / translate is
not part of the repository snapshot (the examples only call it), so the stack
is modelled from the spec: a non-empty ordered sequence of matrices, top at
the head; push duplicates the top; pop removes the top and fails with
StackUnderflow when only the root remains; rotate/translate right-multiply
the top by the corresponding matrix.  The matrix type is kept abstract (any
type with a multiplication), and the matrix corresponding to a
rotate/translate call is supplied by a parameter function. -/

/-- Modelled from the spec: a rotate(angle) or translate(dx,dy,dz) call
confined between a push and its pop. -/
inductive RTOp where
  | rotate (angle : ℚ)
  | translate (dx dy dz : ℚ)
deriving DecidableEq, Repr

/-- Modelled from the spec: the full operation alphabet of the Transform
Stack. -/
inductive StackOp where
  | push
  | pop
  | rt (op : RTOp)
deriving DecidableEq, Repr

variable {M : Type}

/-- Modelled from the spec: push duplicates the top.  The empty-stack case is
unreachable from the root configuration and is totalised as a no-op. -/
def pushStack : List M → List M
  | [] => []
  | m :: ms => m :: m :: ms

/-- Modelled from the spec: pop removes the top; it fails with StackUnderflow
and leaves the stack unchanged when only the root remains. -/
def popStack : List M → List M × Option Err
  | [] => ([], some .stackUnderflow)
  | [m] => ([m], some .stackUnderflow)
  | _ :: m :: ms => (m :: ms, none)

/-- Modelled from the spec: rotate/translate right-multiply the top by the
corresponding matrix, given by the parameter `opM`. -/
def rtStack [Mul M] (opM : RTOp → M) (op : RTOp) : List M → List M
  | [] => []
  | m :: ms => (m * opM op) :: ms

/-- Modelled from the spec: one Transform Stack operation; errors are local,
recoverable conditions surfaced to the caller, so the stack state is kept
unchanged when an error is reported. -/
def stackStep [Mul M] (opM : RTOp → M) : StackOp → List M → List M × Option Err
  | .push, s => (pushStack s, none)
  | .pop, s => popStack s
  | .rt op, s => (rtStack opM op s, none)

/-- Runs a sequence of Transform Stack operations, keeping the stack across
recoverable errors. -/
def runStackOps [Mul M] (opM : RTOp → M) : List StackOp → List M → List M
  | [], s => s
  | op :: ops, s => runStackOps opM ops (stackStep opM op s).1

/-- Applies a sequence of rotate/translate calls to the stack. -/
def applyRTOps [Mul M] (opM : RTOp → M) : List RTOp → List M → List M
  | [], s => s
  | op :: ops, s => applyRTOps opM ops (rtStack opM op s)

theorem rtStack_cons [Mul M] (opM : RTOp → M) (op : RTOp) (m : M) (ms : List M) :
    rtStack opM op (m :: ms) = (m * opM op) :: ms := rfl

/-- Rotate/translate calls only modify the head of the stack: everything
below the top is untouched. -/
theorem applyRTOps_tail [Mul M] (opM : RTOp → M) (ops : List RTOp)
    (m : M) (ms : List M) :
    ∃ m2 : M, applyRTOps opM ops (m :: ms) = m2 :: ms := by
  induction ops generalizing m with
  | nil => exact ⟨m, rfl⟩
  | cons op ops ih =>
      rcases ih (m * opM op) with ⟨m2, h2⟩
      exact ⟨m2, h2⟩

/-- Every Transform Stack operation preserves non-emptiness of the stack. -/
theorem stackStep_ne_nil [Mul M] (opM : RTOp → M) (op : StackOp)
    (s : List M) (hs : s ≠ []) : (stackStep opM op s).1 ≠ [] := by
  cases op with
  | push => cases s with
      | nil => exact absurd rfl hs
      | cons m ms => simp [stackStep, pushStack]
  | pop => cases s with
      | nil => exact absurd rfl hs
      | cons m ms => cases ms with
          | nil => simp [stackStep, popStack]
          | cons m2 ms2 => simp [stackStep, popStack]
  | rt op => cases s with
      | nil => exact absurd rfl hs
      | cons m ms => simp [stackStep, rtStack]

theorem runStackOps_ne_nil [Mul M] (opM : RTOp → M) (ops : List StackOp)
    (s : List M) (hs : s ≠ []) : runStackOps opM ops s ≠ [] := by
  induction ops generalizing s with
  | nil => exact hs
  | cons op ops ih => exact ih _ (stackStep_ne_nil opM op s hs)

/-- C1: for every non-empty Transform Stack and every sequence of
rotate/translate calls confined between a push and the immediately matching
pop, the pop succeeds and restores the whole stack, in particular the top
matrix equals the matrix on top before the push. -/
theorem push_rt_pop_restores [Mul M] (opM : RTOp → M) (ops : List RTOp)
    (s : List M) (hs : s ≠ []) :
    popStack (applyRTOps opM ops (pushStack s)) = (s, none) ∧
      (popStack (applyRTOps opM ops (pushStack s))).1.head? = s.head? := by
  cases s with
  | nil => exact absurd rfl hs
  | cons m ms =>
      rcases applyRTOps_tail opM ops (M := M) m (m :: ms) with ⟨m2, h2⟩
      constructor
      · simp [pushStack, h2, popStack]
      · simp [pushStack, h2, popStack]

/-- Witness for C1 at a concrete stack and operation sequence. -/
theorem push_rt_pop_restores_witness :
    ([(3 : ℚ)] ≠ ([] : List ℚ)) ∧
      popStack (applyRTOps (fun _ => (2 : ℚ))
          [RTOp.rotate 1, RTOp.translate 1 2 3] (pushStack [(3 : ℚ)]))
        = ([(3 : ℚ)], none) := by
  refine ⟨by simp, ?_⟩
  exact (push_rt_pop_restores (fun _ => (2 : ℚ))
    [RTOp.rotate 1, RTOp.translate 1 2 3] [(3 : ℚ)] (by simp)).1

/-- C2: popping a Transform Stack that holds only the root fails with
StackUnderflow and leaves the stack unchanged, and every stack reachable
from a root configuration by any sequence of push/pop/rotate/translate
operations has at least one entry. -/
theorem pop_root_underflow_and_reachable_ne_nil [Mul M] (opM : RTOp → M) :
    (∀ root : M, popStack [root] = ([root], some Err.stackUnderflow)) ∧
      (∀ (ops : List StackOp) (root : M),
        runStackOps opM ops [root] ≠ []) := by
  constructor
  · intro root
    rfl
  · intro ops root
    exact runStackOps_ne_nil opM ops [root] (by simp)

/-- Witness for C2 at a concrete root and operation sequence. -/
theorem pop_root_underflow_witness :
    popStack [(1 : ℚ)] = ([(1 : ℚ)], some Err.stackUnderflow) ∧
      runStackOps (fun _ => (2 : ℚ)) [StackOp.push, StackOp.pop, StackOp.pop]
        [(1 : ℚ)] ≠ [] :=
  ⟨(pop_root_underflow_and_reachable_ne_nil (fun _ => (2 : ℚ))).1 1,
   (pop_root_underflow_and_reachable_ne_nil (fun _ => (2 : ℚ))).2
     [StackOp.push, StackOp.pop, StackOp.pop] 1⟩

/-! ## Mesh / incremental Geometry Builder (spec sections 3 and 4.2)

The incremental builder behind the Python Geometry() object (used by
examples/animated_mesh.py) is not part of the repository snapshot, so it is
modelled from the spec: vertex(x,y,z) appends a vertex using the last-set
color/normal (defaults: normal (0,1,0), color white); index(i) appends an
index; set_vertex(i,x,y,z) overwrites the position of an existing vertex in
place and fails with IndexOutOfRange if i is at least the vertex count,
leaving the mesh unchanged. -/

/-- Modelled from the spec: a vertex is a position (3 floats), a normal
(3 floats) and a color (4 floats), with floats modelled as rationals. -/
structure Vertex where
  position : ℚ × ℚ × ℚ
  normal : ℚ × ℚ × ℚ
  color : ℚ × ℚ × ℚ × ℚ
deriving DecidableEq, Repr

/-- Modelled from the spec: a mutable Mesh is an ordered sequence of vertices
and an ordered sequence of indices, together with the builder state holding
the last-set normal and color. -/
structure Mesh where
  verts : List Vertex
  indices : List Nat
  curNormal : ℚ × ℚ × ℚ
  curColor : ℚ × ℚ × ℚ × ℚ
deriving DecidableEq, Repr

/-- Modelled from the spec: a freshly constructed Geometry() with default
normal (0,1,0) and white color. -/
def Mesh.empty : Mesh :=
  { verts := [], indices := [], curNormal := (0, 1, 0), curColor := (1, 1, 1, 1) }

/-- Modelled from the spec: color(r,g,b,a) sets the color used by subsequent
vertex calls. -/
def Mesh.color (m : Mesh) (r g b a : ℚ) : Mesh :=
  { m with curColor := (r, g, b, a) }

/-- Modelled from the spec: normal(x,y,z) sets the normal used by subsequent
vertex calls. -/
def Mesh.normal (m : Mesh) (x y z : ℚ) : Mesh :=
  { m with curNormal := (x, y, z) }

/-- Modelled from the spec: vertex(x,y,z) appends a vertex using the last-set
color and normal. -/
def Mesh.vertex (m : Mesh) (x y z : ℚ) : Mesh :=
  { m with verts :=
      m.verts ++ [{ position := (x, y, z), normal := m.curNormal,
                    color := m.curColor }] }

/-- Modelled from the spec: index(i) appends an index. -/
def Mesh.index (m : Mesh) (i : Nat) : Mesh :=
  { m with indices := m.indices ++ [i] }

/-- Modelled from the spec: set_vertex(i,x,y,z) overwrites the position of
vertex i in place; it fails with IndexOutOfRange if i is at least the vertex
count, leaving the mesh unchanged. -/
def Mesh.set_vertex (m : Mesh) (i : Nat) (x y z : ℚ) : Mesh × Option Err :=
  match m.verts[i]? with
  | some v =>
      ({ m with verts := m.verts.set i { v with position := (x, y, z) } }, none)
  | none => (m, some .indexOutOfRange)

theorem set_vertex_indices (m : Mesh) (i : Nat) (x y z : ℚ) :
    (m.set_vertex i x y z).1.indices = m.indices := by
  unfold Mesh.set_vertex
  cases m.verts[i]? <;> rfl

theorem set_vertex_count (m : Mesh) (i : Nat) (x y z : ℚ) :
    (m.set_vertex i x y z).1.verts.length = m.verts.length := by
  unfold Mesh.set_vertex
  cases h : m.verts[i]? with
  | none => rfl
  | some v => simp

/-! ## Grid mesh scenario (examples/animated_mesh.py)

The setup callback builds a 20 by 20 grid mesh; the draw callback rewrites
every vertex position each frame with set_vertex.  The trigonometric wave is
kept abstract as a function of the two horizontal coordinates, one function
per frame. -/

def gridSize : Nat := 20

def gridSpacing : ℚ := 10

def gridOffset : ℚ := ((gridSize : ℚ) * gridSpacing) / 2

def gridPx (x : Nat) : ℚ := (x : ℚ) * gridSpacing - gridOffset

def gridPz (z : Nat) : ℚ := (z : ℚ) * gridSpacing - gridOffset

/-- One inner-loop step of the vertex-building loop of setup. -/
def addGridVertex (m : Mesh) (z x : Nat) : Mesh :=
  (((m.color ((x : ℚ) / (gridSize : ℚ)) (1 / 2) ((z : ℚ) / (gridSize : ℚ)) 1).normal
      0 1 0).vertex (gridPx x) 0 (gridPz z))

/-- One inner-loop step of the index-building loop of setup: the two
triangles of one grid quad. -/
def addGridQuad (m : Mesh) (z x : Nat) : Mesh :=
  let tl := z * gridSize + x
  let tr := tl + 1
  let bl := (z + 1) * gridSize + x
  let br := bl + 1
  (((((m.index tl).index bl).index tr).index tr).index bl).index br

/-- The grid Mesh built by the setup callback of animated_mesh.py. -/
def gridMesh : Mesh :=
  let mv := (List.range gridSize).foldl (fun m z =>
    (List.range gridSize).foldl (fun m x => addGridVertex m z x) m) Mesh.empty
  (List.range (gridSize - 1)).foldl (fun m z =>
    (List.range (gridSize - 1)).foldl (fun m x => addGridQuad m z x) m) mv

/-- One draw callback of animated_mesh.py: set_vertex once per grid vertex,
with the height given by the frame's wave function of the two horizontal
coordinates. -/
def frameUpdate (wave : ℚ → ℚ → ℚ) (m : Mesh) : Mesh :=
  (List.range gridSize).foldl (fun m z =>
    (List.range gridSize).foldl (fun m x =>
      (m.set_vertex (z * gridSize + x) (gridPx x)
          (wave (gridPx x) (gridPz z)) (gridPz z)).1) m) m

/-- The mesh after k draw callbacks, with one wave function per frame. -/
def meshAfterFrames (waves : Nat → ℚ → ℚ → ℚ) : Nat → Mesh
  | 0 => gridMesh
  | k + 1 => frameUpdate (waves k) (meshAfterFrames waves k)

theorem foldl_preserves_topology {α : Type} (f : Mesh → α → Mesh)
    (hf : ∀ (m : Mesh) (a : α),
      (f m a).indices = m.indices ∧ (f m a).verts.length = m.verts.length)
    (l : List α) (m : Mesh) :
    (l.foldl f m).indices = m.indices ∧
      (l.foldl f m).verts.length = m.verts.length := by
  induction l generalizing m with
  | nil => exact ⟨rfl, rfl⟩
  | cons a l ih =>
      rcases ih (f m a) with ⟨h1, h2⟩
      rcases hf m a with ⟨h3, h4⟩
      exact ⟨h1.trans h3, h2.trans h4⟩

theorem foldl_verts_growth {α : Type} (f : Mesh → α → Mesh) (c : Nat)
    (hf : ∀ (m : Mesh) (a : α), (f m a).verts.length = m.verts.length + c)
    (l : List α) (m : Mesh) :
    (l.foldl f m).verts.length = m.verts.length + c * l.length := by
  induction l generalizing m with
  | nil => simp
  | cons a l ih =>
      rw [List.foldl_cons, ih, hf, List.length_cons]
      ring

theorem foldl_indices_growth {α : Type} (f : Mesh → α → Mesh) (c : Nat)
    (hf : ∀ (m : Mesh) (a : α), (f m a).indices.length = m.indices.length + c)
    (l : List α) (m : Mesh) :
    (l.foldl f m).indices.length = m.indices.length + c * l.length := by
  induction l generalizing m with
  | nil => simp
  | cons a l ih =>
      rw [List.foldl_cons, ih, hf, List.length_cons]
      ring

theorem addGridVertex_verts (m : Mesh) (z x : Nat) :
    (addGridVertex m z x).verts.length = m.verts.length + 1 := by
  simp [addGridVertex, Mesh.color, Mesh.normal, Mesh.vertex]

theorem addGridVertex_indices (m : Mesh) (z x : Nat) :
    (addGridVertex m z x).indices = m.indices := rfl

theorem addGridQuad_indices (m : Mesh) (z x : Nat) :
    (addGridQuad m z x).indices.length = m.indices.length + 6 := by
  simp [addGridQuad, Mesh.index]

theorem addGridQuad_verts (m : Mesh) (z x : Nat) :
    (addGridQuad m z x).verts = m.verts := rfl

theorem gridMesh_verts_count : gridMesh.verts.length = 400 := by
  unfold gridMesh
  have hquad : ∀ m : Mesh,
      ((List.range (gridSize - 1)).foldl (fun m z =>
        (List.range (gridSize - 1)).foldl (fun m x => addGridQuad m z x) m)
          m).verts.length = m.verts.length + 0 := by
    intro m
    have := foldl_verts_growth
      (fun m z => (List.range (gridSize - 1)).foldl
        (fun m x => addGridQuad m z x) m) 0
      (fun m z => by
        have := foldl_verts_growth (fun m x => addGridQuad m z x) 0
          (fun m x => by rw [addGridQuad_verts]; ring)
          (List.range (gridSize - 1)) m
        simpa using this)
      (List.range (gridSize - 1)) m
    simpa using this
  rw [hquad]
  have hv := foldl_verts_growth
    (fun m z => (List.range gridSize).foldl (fun m x => addGridVertex m z x) m)
    gridSize
    (fun m z => by
      have := foldl_verts_growth (fun m x => addGridVertex m z x) 1
        (fun m x => addGridVertex_verts m z x) (List.range gridSize) m
      simpa [gridSize] using this)
    (List.range gridSize) Mesh.empty
  simpa [Mesh.empty, gridSize] using hv

theorem gridMesh_indices_count : gridMesh.indices.length = 2166 := by
  unfold gridMesh
  have hv : ∀ m : Mesh,
      ((List.range gridSize).foldl (fun m z =>
        (List.range gridSize).foldl (fun m x => addGridVertex m z x) m)
          m).indices.length = m.indices.length + 0 := by
    intro m
    have := foldl_indices_growth
      (fun m z => (List.range gridSize).foldl
        (fun m x => addGridVertex m z x) m) 0
      (fun m z => by
        have := foldl_indices_growth (fun m x => addGridVertex m z x) 0
          (fun m x => by rw [addGridVertex_indices]; ring)
          (List.range gridSize) m
        simpa using this)
      (List.range gridSize) m
    simpa using this
  have hq := foldl_indices_growth
    (fun m z => (List.range (gridSize - 1)).foldl
      (fun m x => addGridQuad m z x) m)
    (6 * (gridSize - 1))
    (fun m z => by
      have := foldl_indices_growth (fun m x => addGridQuad m z x) 6
        (fun m x => addGridQuad_indices m z x) (List.range (gridSize - 1)) m
      simpa [gridSize] using this)
    (List.range (gridSize - 1))
    ((List.range gridSize).foldl (fun m z =>
      (List.range gridSize).foldl (fun m x => addGridVertex m z x) m)
        Mesh.empty)
  rw [hq, hv]
  simp [Mesh.empty, gridSize]

theorem frameUpdate_topology (wave : ℚ → ℚ → ℚ) (m : Mesh) :
    (frameUpdate wave m).indices = m.indices ∧
      (frameUpdate wave m).verts.length = m.verts.length := by
  refine foldl_preserves_topology _ ?_ _ m
  intro m z
  refine foldl_preserves_topology _ ?_ _ m
  intro m x
  exact ⟨set_vertex_indices m _ _ _ _, set_vertex_count m _ _ _ _⟩

/-- C3: set_vertex on an in-range index changes only the position of that
vertex (index buffer, vertex count, all other vertices, and the vertex's own
normal and color are preserved); and in the animated_mesh.py scenario - a
400-vertex, 2166-index grid mesh updated by set_vertex once per vertex per
frame - the vertex count and the index buffer are identical across all 10
frames. -/
theorem set_vertex_topology_invariance :
    (∀ (m : Mesh) (i : Nat) (x y z : ℚ), i < m.verts.length →
      (m.set_vertex i x y z).1.indices = m.indices ∧
      (m.set_vertex i x y z).1.verts.length = m.verts.length ∧
      (∀ j : Nat, j ≠ i → (m.set_vertex i x y z).1.verts[j]? = m.verts[j]?) ∧
      (∃ v : Vertex, m.verts[i]? = some v ∧
        (m.set_vertex i x y z).1.verts[i]? =
          some { v with position := (x, y, z) })) ∧
    (gridMesh.verts.length = 400 ∧ gridMesh.indices.length = 2166 ∧
      ∀ (waves : Nat → ℚ → ℚ → ℚ) (k : Nat), k ≤ 10 →
        (meshAfterFrames waves k).verts.length = gridMesh.verts.length ∧
        (meshAfterFrames waves k).indices = gridMesh.indices) := by
  constructor
  · intro m i x y z hi
    rcases List.getElem?_eq_getElem hi with hv
    refine ⟨set_vertex_indices m i x y z, set_vertex_count m i x y z, ?_, ?_⟩
    · intro j hj
      unfold Mesh.set_vertex
      rw [hv]
      simp [List.getElem?_set_ne (Ne.symm hj)]
    · refine ⟨m.verts[i], hv, ?_⟩
      unfold Mesh.set_vertex
      rw [hv]
      simp [List.getElem?_set_self, hi]
  · refine ⟨gridMesh_verts_count, gridMesh_indices_count, ?_⟩
    intro waves k _
    induction k with
    | zero => exact ⟨rfl, rfl⟩
    | succ k ih =>
        rcases ih (Nat.le_of_succ_le (by omega)) with ⟨h1, h2⟩
        rcases frameUpdate_topology (waves k) (meshAfterFrames waves k) with ⟨h3, h4⟩
        exact ⟨h4.trans h1, h3.trans h2⟩

/-- Witness for C3 at a one-vertex mesh and index 0. -/
theorem set_vertex_topology_invariance_witness :
    (0 < (Mesh.empty.vertex 1 2 3).verts.length) ∧
      ((Mesh.empty.vertex 1 2 3).set_vertex 0 4 5 6).1.indices =
        (Mesh.empty.vertex 1 2 3).indices := by
  exact ⟨by decide,
    (set_vertex_topology_invariance.1 (Mesh.empty.vertex 1 2 3) 0 4 5 6
      (by decide)).1⟩

/-- C4: set_vertex fails with IndexOutOfRange exactly when the index is at
least the vertex count, and on that failure the mesh is returned unchanged
(no silent clamping). -/
theorem set_vertex_out_of_range (m : Mesh) (i : Nat) (x y z : ℚ) :
    ((m.set_vertex i x y z).2 = some Err.indexOutOfRange ↔
        m.verts.length ≤ i) ∧
      (m.verts.length ≤ i →
        m.set_vertex i x y z = (m, some Err.indexOutOfRange)) := by
  constructor
  · unfold Mesh.set_vertex
    cases h : m.verts[i]? with
    | none =>
        simp only [List.getElem?_eq_none_iff] at h
        simp [h]
    | some v =>
        have hlt : i < m.verts.length := by
          by_contra hge
          rw [List.getElem?_eq_none_iff.mpr (Nat.le_of_not_lt hge)] at h
          exact Option.noConfusion h
        simp [Nat.not_le.mpr hlt]
  · intro hge
    unfold Mesh.set_vertex
    rw [List.getElem?_eq_none_iff.mpr hge]

/-- Witness for C4 on the empty mesh at index 0. -/
theorem set_vertex_out_of_range_witness :
    Mesh.empty.set_vertex 0 1 2 3 = (Mesh.empty, some Err.indexOutOfRange) :=
  (set_vertex_out_of_range Mesh.empty 0 1 2 3).2 (by decide)

/-! ## Recorded geometry blocks (spec section 4.2, examples/particles.py)

The engine code behind beginGeometry / endGeometry is not part of the
repository snapshot, so the recorder is modelled from the spec: primitive
emissions between begin and end are captured and flattened into one static
Geometry, with each primitive contributing a batch of already-baked vertices
and indices local to the batch; flattening appends the batch's vertices and
appends its indices offset by the vertex count accumulated so far.
end_geometry fails with EmptyRecording if no primitives were emitted;
nesting begin/end blocks fails with AlreadyRecording. -/

/-- Modelled from the spec: an immutable Geometry is an ordered sequence of
vertices and an ordered sequence of indices (triangle list). -/
structure Geometry where
  verts : List Vertex
  indices : List Nat
deriving DecidableEq, Repr

def Geometry.empty : Geometry := { verts := [], indices := [] }

/-- Well-formedness of a triangle-list geometry: the index count is a
multiple of 3 and every index is below the vertex count. -/
abbrev wfGeometry (g : Geometry) : Prop :=
  g.indices.length % 3 = 0 ∧ ∀ i ∈ g.indices, i < g.verts.length

/-- Modelled from the spec: recorder state of the Geometry Builder; while a
recorded block is open it holds the flattened geometry so far and the number
of primitives emitted since begin_geometry. -/
structure Recorder where
  acc : Option (Geometry × Nat)
deriving DecidableEq, Repr

def Recorder.idleR : Recorder := { acc := none }

/-- Modelled from the spec: begin_geometry opens a recorded block; nesting is
disallowed and fails with AlreadyRecording, leaving the recorder unchanged. -/
def beginGeometry (r : Recorder) : Recorder × Option Err :=
  match r.acc with
  | none => ({ acc := some (Geometry.empty, 0) }, none)
  | some _ => (r, some .alreadyRecording)

/-- Modelled from the spec: one primitive emission inside a recorded block
appends the primitive's baked vertex batch and its indices offset by the
vertex count accumulated so far; outside a recorded block the primitive is
drawn immediately and the recorder is unchanged. -/
def emitPrim (r : Recorder) (b : Geometry) : Recorder :=
  match r.acc with
  | none => r
  | some (g, n) =>
      { acc := some
          ({ verts := g.verts ++ b.verts,
             indices := g.indices ++ b.indices.map (fun i => g.verts.length + i) },
           n + 1) }

/-- Modelled from the spec: end_geometry closes the recorded block and
returns the flattened Geometry; it fails with EmptyRecording if no
primitives were emitted since the matching begin_geometry. -/
def endGeometry (r : Recorder) : Recorder × Except Err Geometry :=
  match r.acc with
  | none => (r, .error .emptyRecording)
  | some (_, 0) => (r, .error .emptyRecording)
  | some (g, _ + 1) => ({ acc := none }, .ok g)

/-- A whole recorded block: begin from an idle recorder, emit the given
primitive batches, end. -/
def runRecord (batches : List Geometry) : Recorder × Except Err Geometry :=
  endGeometry (batches.foldl emitPrim (beginGeometry Recorder.idleR).1)

theorem append_batch_wf (g b : Geometry) (hg : wfGeometry g) (hb : wfGeometry b) :
    wfGeometry
      { verts := g.verts ++ b.verts,
        indices := g.indices ++ b.indices.map (fun i => g.verts.length + i) } := by
  constructor
  · simp only [List.length_append, List.length_map]
    omega
  · intro i hi
    simp only [List.mem_append, List.mem_map] at hi
    simp only [List.length_append]
    rcases hi with hi | ⟨j, hj, rfl⟩
    · exact Nat.lt_of_lt_of_le (hg.2 i hi) (Nat.le_add_right _ _)
    · exact Nat.add_lt_add_left (hb.2 j hj) _

theorem foldl_emitPrim_wf (batches : List Geometry)
    (hb : ∀ b ∈ batches, wfGeometry b) (g : Geometry) (n : Nat)
    (hg : wfGeometry g) :
    ∃ (g2 : Geometry) (n2 : Nat),
      (batches.foldl emitPrim { acc := some (g, n) }).acc = some (g2, n2) ∧
        wfGeometry g2 := by
  induction batches generalizing g n with
  | nil => exact ⟨g, n, rfl, hg⟩
  | cons b bs ih =>
      rw [List.foldl_cons]
      have hstep : emitPrim { acc := some (g, n) } b =
          { acc := some
              ({ verts := g.verts ++ b.verts,
                 indices := g.indices ++ b.indices.map (fun i => g.verts.length + i) },
               n + 1) } := rfl
      rw [hstep]
      exact ih (fun b2 hb2 => hb b2 (List.mem_cons_of_mem b hb2)) _ (n + 1)
        (append_batch_wf g b hg (hb b (List.mem_cons_self b bs)))

/-- C5: every Geometry returned by a successful begin/end recorded block
whose primitive batches are well-formed triangle lists has an index count
that is a multiple of 3, and every one of its indices is strictly below its
vertex count. -/
theorem recorded_geometry_wf (batches : List Geometry)
    (hb : ∀ b ∈ batches, wfGeometry b) (g : Geometry)
    (hg : (runRecord batches).2 = .ok g) :
    g.indices.length % 3 = 0 ∧ ∀ i ∈ g.indices, i < g.verts.length := by
  rcases foldl_emitPrim_wf batches hb Geometry.empty 0
      ⟨rfl, by intro i hi; simp [Geometry.empty] at hi⟩ with
    ⟨g2, n2, hacc, hw⟩
  unfold runRecord at hg
  have hbg : (beginGeometry Recorder.idleR).1 = { acc := some (Geometry.empty, 0) } := rfl
  rw [hbg] at hg
  unfold endGeometry at hg
  rw [hacc] at hg
  cases n2 with
  | zero => exact absurd hg (by simp)
  | succ n3 =>
      simp only [Except.ok.injEq] at hg
      rw [← hg]
      exact hw

/-- A single triangle batch used as a concrete recorded primitive. -/
def triBatch : Geometry :=
  { verts := [{ position := (0, 0, 0), normal := (0, 1, 0), color := (1, 1, 1, 1) },
              { position := (1, 0, 0), normal := (0, 1, 0), color := (1, 1, 1, 1) },
              { position := (0, 1, 0), normal := (0, 1, 0), color := (1, 1, 1, 1) }],
    indices := [0, 1, 2] }

/-- Witness for C5 on a one-triangle recorded block. -/
theorem recorded_geometry_wf_witness :
    triBatch.indices.length % 3 = 0 ∧ ∀ i ∈ triBatch.indices, i < triBatch.verts.length :=
  recorded_geometry_wf [triBatch] (by decide) triBatch rfl

/-- C6: begin_geometry while a recorded block is open fails with
AlreadyRecording and leaves the recorder unchanged, and end_geometry when no
primitives were emitted since the matching begin_geometry fails with
EmptyRecording. -/
theorem begin_end_geometry_errors (r : Recorder) (g : Geometry) (n : Nat) :
    (r.acc = some (g, n) → beginGeometry r = (r, some Err.alreadyRecording)) ∧
      (r.acc = some (g, 0) → (endGeometry r).2 = .error Err.emptyRecording) := by
  constructor
  · intro h
    unfold beginGeometry
    rw [h]
  · intro h
    unfold endGeometry
    rw [h]

/-- Witness for C6 on a freshly opened recorder. -/
theorem begin_end_geometry_errors_witness :
    beginGeometry { acc := some (Geometry.empty, 0) } =
        ({ acc := some (Geometry.empty, 0) }, some Err.alreadyRecording) ∧
      (endGeometry { acc := some (Geometry.empty, 0) }).2 =
        .error Err.emptyRecording :=
  ⟨(begin_end_geometry_errors { acc := some (Geometry.empty, 0) } Geometry.empty 0).1 rfl,
   (begin_end_geometry_errors { acc := some (Geometry.empty, 0) } Geometry.empty 0).2 rfl⟩

/-! ## Material Table (spec sections 3 and 4.3, examples/materials.py)

The engine code behind Material() is not part of the repository snapshot, so
the table is modelled from the spec: a mapping from parameter name to a
scalar float or a 4-component float vector; unknown names are created on
first write; set_float / set_float4 are last-write-wins overwrites. -/

/-- Modelled from the spec: a material parameter value is a scalar float or
a 4-component float vector. -/
inductive MatValue where
  | float (v : ℚ)
  | float4 (r g b a : ℚ)
deriving DecidableEq, Repr

/-- Modelled from the spec: a Material is a mapping from parameter name to
value, kept as an ordered association list. -/
structure Material where
  params : List (String × MatValue)
deriving DecidableEq, Repr

def Material.empty : Material := { params := [] }

/-- Replaces the binding of a name in an association list, or appends a new
binding when the name is absent. -/
def upsertParam (n : String) (v : MatValue) :
    List (String × MatValue) → List (String × MatValue)
  | [] => [(n, v)]
  | (k, w) :: rest =>
      if k = n then (n, v) :: rest else (k, w) :: upsertParam n v rest

/-- Modelled from the spec: last-write-wins write of a parameter; unknown
names are created on first write. -/
def Material.setParam (m : Material) (n : String) (v : MatValue) : Material :=
  { params := upsertParam n v m.params }

def Material.set_float (m : Material) (n : String) (v : ℚ) : Material :=
  m.setParam n (.float v)

def Material.set_float4 (m : Material) (n : String) (r g b a : ℚ) : Material :=
  m.setParam n (.float4 r g b a)

/-- Modelled from the spec: the value a later read or the backend resolves
for a parameter name, if set. -/
def Material.getParam (m : Material) (n : String) : Option MatValue :=
  (m.params.find? (fun p => p.1 = n)).map (fun p => p.2)

theorem getParam_setParam (m : Material) (n : String) (v : MatValue) :
    (m.setParam n v).getParam n = some v := by
  unfold Material.setParam Material.getParam
  induction m.params with
  | nil => simp [upsertParam, List.find?]
  | cons p rest ih =>
      by_cases h : p.1 = n
      · cases p
        simp_all [upsertParam, List.find?]
      · cases p
        simp_all [upsertParam, List.find?]

/-- C7: writing the same parameter name twice with different values yields
the latter value on the next read, regardless of whether the name existed
before, both for set_float, for set_float4, and for any mix of the two. -/
theorem material_last_write_wins (m : Material) (n : String) :
    (∀ v1 v2 : MatValue,
      ((m.setParam n v1).setParam n v2).getParam n = some v2) ∧
      (∀ u v : ℚ,
        ((m.set_float n u).set_float n v).getParam n = some (.float v)) ∧
      (∀ r1 g1 b1 a1 r2 g2 b2 a2 : ℚ,
        ((m.set_float4 n r1 g1 b1 a1).set_float4 n r2 g2 b2 a2).getParam n =
          some (.float4 r2 g2 b2 a2)) := by
  refine ⟨fun v1 v2 => getParam_setParam _ n v2,
    fun u v => getParam_setParam _ n (.float v),
    fun r1 g1 b1 a1 r2 g2 b2 a2 => getParam_setParam _ n (.float4 r2 g2 b2 a2)⟩

/-- Witness for C7 at the roughness parameter of materials.py. -/
theorem material_last_write_wins_witness :
    ((Material.empty.set_float "roughness" (3 / 10)).set_float "roughness"
        (8 / 10)).getParam "roughness" = some (.float (8 / 10)) :=
  (material_last_write_wins Material.empty "roughness").2.1 (3 / 10) (8 / 10)

/-! ## Scene Frame Driver in cooperative mode (spec sections 4.6 and 4.7)

The driver and the cooperative Host Loop Adapter are not part of the
repository snapshot (src/python/register_inputhook.py only polls the engine
from the host loop), so they are modelled from the spec: each tick polls the
window; if the window has closed the driver is marked Closed and the tick
reports not ready; otherwise the driver runs one FrameActive to Idle cycle
and reports ready; a Closed driver runs no further cycles. -/

/-- Modelled from the spec: the stable driver states; FrameActive is
transient within a tick. -/
inductive DriverState where
  | configured
  | idle
  | closed
deriving DecidableEq, Repr

/-- Modelled from the spec: the Frame Driver as seen by the cooperative
adapter, with a counter of completed FrameActive to Idle cycles. -/
structure Driver where
  state : DriverState
  cycles : Nat
deriving DecidableEq, Repr

def Driver.init : Driver := { state := .configured, cycles := 0 }

/-- Modelled from the spec: one cooperative tick.  The argument is the
polled window status (true while the window remains open); the returned
Bool is the readiness report to the foreign scheduler. -/
def tick (d : Driver) (windowOpen : Bool) : Driver × Bool :=
  match d.state with
  | .closed => (d, false)
  | _ =>
      if windowOpen then ({ state := .idle, cycles := d.cycles + 1 }, true)
      else ({ d with state := .closed }, false)

/-- Runs a sequence of ticks with the given polled window statuses,
collecting the readiness reports in order. -/
def runTicks (d : Driver) : List Bool → Driver × List Bool
  | [] => (d, [])
  | s :: rest =>
      let (d2, r) := tick d s
      let (d3, rs) := runTicks d2 rest
      (d3, r :: rs)

/-- C8: in cooperative mode, on the tick sequence whose first 5 ticks
observe no close signal and whose 6th does, the driver completes exactly 5
FrameActive to Idle cycles reporting ready after each of the first 5 ticks,
and on tick 6 transitions to Closed reporting not ready without a 6th
cycle; moreover a tick that observes closure never runs a cycle, and a
Closed driver never runs a cycle nor reports ready. -/
theorem cooperative_five_ticks_then_close :
    (runTicks Driver.init [true, true, true, true, true, false] =
        ({ state := .closed, cycles := 5 }, [true, true, true, true, true, false])) ∧
      (∀ d : Driver, (tick d false).1.cycles = d.cycles ∧ (tick d false).2 = false) ∧
      (∀ (d : Driver) (s : Bool), d.state = .closed → tick d s = (d, false)) := by
  refine ⟨by decide, ?_, ?_⟩
  · intro d
    cases h : d.state <;> simp [tick, h]
  · intro d s h
    unfold tick
    rw [h]

/-- Witness for C8: a Closed driver ticks to itself reporting not ready. -/
theorem cooperative_five_ticks_then_close_witness :
    tick { state := .closed, cycles := 5 } true =
      ({ state := .closed, cycles := 5 }, false) :=
  cooperative_five_ticks_then_close.2.2 { state := .closed, cycles := 5 } true rfl

/-! ## Handle validity across the Closed transition (spec sections 3, 4.6, 7)

The handle tables of the Scene Frame are not part of the repository
snapshot, so they are modelled from the spec: the Scene Frame exclusively
owns all Meshes, Geometries, Materials and Lights; the Closed transition
frees them all; handles are non-owning references resolved against the
owned tables, and a drawing operation first checks that its handle resolves
against the currently active Scene Frame, failing with InvalidHandle
otherwise. -/

/-- Modelled from the spec: the kind of resource a handle refers to. -/
inductive HandleKind where
  | mesh
  | geom
  | material
  | light
deriving DecidableEq, Repr

/-- Modelled from the spec: the Scene Frame's ownership state, reduced to
the sizes of its four resource tables and whether it has closed. -/
structure SceneFrame where
  closed : Bool
  meshCount : Nat
  geomCount : Nat
  matCount : Nat
  lightCount : Nat
deriving DecidableEq, Repr

def SceneFrame.tableSize (s : SceneFrame) : HandleKind → Nat
  | .mesh => s.meshCount
  | .geom => s.geomCount
  | .material => s.matCount
  | .light => s.lightCount

/-- Modelled from the spec: a handle belongs to the currently active Scene
Frame when the frame is open and the handle resolves inside the owned
table. -/
def SceneFrame.validHandle (s : SceneFrame) (k : HandleKind) (h : Nat) : Bool :=
  !s.closed && decide (h < s.tableSize k)

/-- Modelled from the spec: the Closed transition frees all owned
Geometries, Meshes, Materials and Lights. -/
def SceneFrame.close (_ : SceneFrame) : SceneFrame :=
  { closed := true, meshCount := 0, geomCount := 0, matCount := 0, lightCount := 0 }

/-- Modelled from the spec: the contract check every draw-submission call
performs on its handle, failing with InvalidHandle when the handle does not
belong to the currently active Scene Frame. -/
def SceneFrame.drawOp (s : SceneFrame) (k : HandleKind) (h : Nat) : Option Err :=
  if s.validHandle k h then none else some .invalidHandle

/-- C9: every drawing operation invoked with a handle of any kind that was
valid before the Scene Frame's Closed transition fails with InvalidHandle
after that transition. -/
theorem handle_invalid_after_close (s : SceneFrame) (k : HandleKind) (h : Nat)
    (_hv : s.validHandle k h = true) :
    (s.close).drawOp k h = some Err.invalidHandle := by
  unfold SceneFrame.drawOp SceneFrame.close SceneFrame.validHandle
  simp

/-- Witness for C9 on a one-mesh frame and mesh handle 0. -/
theorem handle_invalid_after_close_witness :
    (SceneFrame.validHandle
        { closed := false, meshCount := 1, geomCount := 0, matCount := 0,
          lightCount := 0 } .mesh 0 = true) ∧
      (SceneFrame.close
          { closed := false, meshCount := 1, geomCount := 0, matCount := 0,
            lightCount := 0 }).drawOp .mesh 0 = some Err.invalidHandle :=
  ⟨by decide,
   handle_invalid_after_close
     { closed := false, meshCount := 1, geomCount := 0, matCount := 0,
       lightCount := 0 } .mesh 0 (by decide)⟩

/-! ## Interactive-shell glue (src/crates/processing_pyo3/src/python)

Embedded directly from jupyter_post_execute.py and register_inputhook.py:
the Jupyter post-execute hook presents and reads back a PNG only when an
active graphics session exists; the inputhook polls the engine until host
input is ready, and when a poll reports the window closed it clears the
graphics session and stops. -/

/-- The module state the glue scripts touch: whether processing._graphics
is set. -/
structure PyState where
  graphics : Option Unit
deriving DecidableEq, Repr

/-- The observable calls _processing_post_execute can make. -/
inductive PyCall where
  | present
  | readbackPng
  | display
deriving DecidableEq, Repr

/-- Embedded from jupyter_post_execute.py: _processing_post_execute returns
immediately when processing._graphics is None; otherwise it calls
processing._present(), processing._readback_png() and displays the image. -/
def processingPostExecute (st : PyState) : PyState × List PyCall :=
  match st.graphics with
  | none => (st, [])
  | some _ => (st, [.present, .readbackPng, .display])

/-- Embedded from register_inputhook.py: the _processing_inputhook loop,
with the successive results of processing._poll_events() given as a list
that is exhausted when context.input_is_ready() becomes true.  A poll
returning false sets processing._graphics to None and breaks out of the
loop. -/
def processingInputhook (polls : List Bool) (st : PyState) : PyState :=
  match polls with
  | [] => st
  | p :: rest =>
      if p then processingInputhook rest st else { st with graphics := none }

theorem inputhook_false_clears (polls : List Bool) (st : PyState)
    (hf : false ∈ polls) : (processingInputhook polls st).graphics = none := by
  induction polls with
  | nil => simp at hf
  | cons p rest ih =>
      cases p with
      | false => rfl
      | true =>
          have : false ∈ rest := by simpa using hf
          simpa [processingInputhook] using ih this

/-- C10: when processing._graphics is None the Jupyter post-execute hook
returns without calling _present or _readback_png; in particular after the
inputhook observes _poll_events() returning false (and hence sets
processing._graphics to None), the post-execute hook attempts no present or
readback. -/
theorem post_execute_no_graphics (st : PyState) :
    (st.graphics = none → processingPostExecute st = (st, [])) ∧
      (∀ polls : List Bool, false ∈ polls →
        processingPostExecute (processingInputhook polls st) =
          (processingInputhook polls st, [])) := by
  constructor
  · intro h
    unfold processingPostExecute
    rw [h]
  · intro polls hf
    unfold processingPostExecute
    rw [inputhook_false_clears polls st hf]

/-- Witness for C10 after a tick loop whose second poll reports closure. -/
theorem post_execute_no_graphics_witness :
    processingPostExecute
        (processingInputhook [true, false] { graphics := some () }) =
      (processingInputhook [true, false] { graphics := some () }, []) :=
  (post_execute_no_graphics { graphics := some () }).2 [true, false] (by decide)

end Processing
